import Mathlib

/-!
Verification of the `parse-address` Go repository (pkg/parser).

Go strings are byte sequences; we embed them as `List Nat` (each entry a
byte value < 256).  All parser code operates on sanitized single-line
inputs, so ASCII semantics of the Go standard library functions
(`strings.Fields`, `strings.TrimSpace`, `strings.ToLower`, ...) are
modelled at the byte level; multi-byte Unicode whitespace and case
mapping are outside the modelled fragment (no claim exercises them).
The regular expressions of `parser.go` are hand-compiled into explicit
scanners with the Go leftmost-first (Perl-style) match semantics and the RE2
ASCII `\b` / `\w` / `\s` definitions.
-/

/-- A Go string: a list of byte values. -/
abbrev Str := List Nat

/-- UTF-8 encoding of one character (used to write byte-string literals). -/
def encodeChar (c : Char) : List Nat :=
  let n := c.toNat
  if n < 128 then [n]
  else if n < 2048 then [192 + n / 64, 128 + n % 64]
  else if n < 65536 then [224 + n / 4096, 128 + (n / 64) % 64, 128 + n % 64]
  else [240 + n / 262144, 128 + (n / 4096) % 64, 128 + (n / 64) % 64, 128 + n % 64]

/-- Byte-string literal helper: the UTF-8 bytes of a Lean string. -/
def ofStr (s : String) : Str :=
  s.data.flatMap encodeChar

/-- RE2 `\w`: ASCII letters, digits, underscore. -/
def isWordB (b : Nat) : Bool :=
  decide ((48 ≤ b ∧ b ≤ 57) ∨ (65 ≤ b ∧ b ≤ 90) ∨ (97 ≤ b ∧ b ≤ 122) ∨ b = 95)

/-- ASCII digit. -/
def isDigitB (b : Nat) : Bool := decide (48 ≤ b ∧ b ≤ 57)

/-- ASCII letter. -/
def isAlphaB (b : Nat) : Bool := decide ((65 ≤ b ∧ b ≤ 90) ∨ (97 ≤ b ∧ b ≤ 122))

/-- Whitespace as used by `strings.Fields` / `strings.TrimSpace`
(ASCII part of `unicode.IsSpace`): tab, LF, VT, FF, CR, space. -/
def isSpaceB (b : Nat) : Bool :=
  decide (b = 9 ∨ b = 10 ∨ b = 11 ∨ b = 12 ∨ b = 13 ∨ b = 32)

/-- RE2 `\s`: `[\t\n\f\r ]` (note: no vertical tab). -/
def isReSpaceB (b : Nat) : Bool :=
  decide (b = 9 ∨ b = 10 ∨ b = 12 ∨ b = 13 ∨ b = 32)

/-- ASCII lower-casing of a byte (`strings.ToLower` on ASCII data). -/
def toLowerB (b : Nat) : Nat := if 65 ≤ b ∧ b ≤ 90 then b + 32 else b

/-- ASCII upper-casing of a byte (`strings.ToUpper` on ASCII data). -/
def toUpperB (b : Nat) : Nat := if 97 ≤ b ∧ b ≤ 122 then b - 32 else b

def toLowerStr (s : Str) : Str := s.map toLowerB

def toUpperStr (s : Str) : Str := s.map toUpperB

/-- `strings.TrimSpace`. -/
def trimSpace (s : Str) : Str :=
  ((s.dropWhile isSpaceB).reverse.dropWhile isSpaceB).reverse

/-- Accumulator-based worker for `strings.Fields`. -/
def fieldsAux : Str → Str → List Str
  | cur, [] => if cur = [] then [] else [cur]
  | cur, b :: r =>
    if isSpaceB b then
      if cur = [] then fieldsAux [] r else cur :: fieldsAux [] r
    else fieldsAux (cur ++ [b]) r

/-- `strings.Fields`: split around runs of whitespace. -/
def fields (s : Str) : List Str := fieldsAux [] s

/-- `strings.Join(ws, " ")`. -/
def joinSp (ws : List Str) : Str := (ws.intersperse [32]).flatten

/-- `strings.Join(ws, ",")`. -/
def joinComma (ws : List Str) : Str := (ws.intersperse [44]).flatten

/-- Worker for `strings.Split(s, ",")`. -/
def splitCommaAux : Str → Str → List Str
  | cur, [] => [cur]
  | cur, b :: r => if b = 44 then cur :: splitCommaAux [] r else splitCommaAux (cur ++ [b]) r

/-- `strings.Split(s, ",")` (always returns at least one part). -/
def splitComma (s : Str) : List Str := splitCommaAux [] s

/-- `strings.TrimSuffix`. -/
def trimSuffix (s suf : Str) : Str :=
  if suf.isSuffixOf s then s.take (s.length - suf.length) else s

/-- `strings.Trim(s, ",")`: strip leading and trailing commas. -/
def trimCommas (s : Str) : Str :=
  ((s.dropWhile (· = 44)).reverse.dropWhile (· = 44)).reverse

/-- `strings.Replace(s, old, "", 1)`: delete the first occurrence of `old`. -/
def replaceFirst : Str → Str → Str
  | [], _ => []
  | b :: r, old =>
    if old.isPrefixOf (b :: r) then (b :: r).drop old.length
    else b :: replaceFirst r old

/-- UTF-8 continuation byte. -/
def isContB (b : Nat) : Bool := decide (128 ≤ b ∧ b ≤ 191)

/-- Worker for `utf8.ValidString`: `n` pending continuation bytes, the
next of which must lie in `[lo, hi]` (later ones in `[128, 191]`);
`n = 0` expects a leading byte.  The leading-byte table is the Go
acceptance table: it rejects overlong encodings, surrogates and values
above U+10FFFF. -/
def utf8ValidAux : Nat → Nat → Nat → Str → Bool
  | 0, _, _, [] => true
  | _ + 1, _, _, [] => false
  | 0, _, _, b :: r =>
    if b ≤ 127 then utf8ValidAux 0 0 0 r
    else if 194 ≤ b ∧ b ≤ 223 then utf8ValidAux 1 128 191 r
    else if b = 224 then utf8ValidAux 2 160 191 r
    else if (225 ≤ b ∧ b ≤ 236) ∨ b = 238 ∨ b = 239 then utf8ValidAux 2 128 191 r
    else if b = 237 then utf8ValidAux 2 128 159 r
    else if b = 240 then utf8ValidAux 3 144 191 r
    else if 241 ≤ b ∧ b ≤ 243 then utf8ValidAux 3 128 191 r
    else if b = 244 then utf8ValidAux 3 128 143 r
    else false
  | n + 1, lo, hi, b :: r =>
    if lo ≤ b ∧ b ≤ hi then utf8ValidAux n 128 191 r else false

/-- `utf8.ValidString` from Go, byte by byte. -/
def utf8Valid (s : Str) : Bool := utf8ValidAux 0 0 0 s

/-- The error values of `validators.go`. -/
inductive Err where
  | inputTooLong
  | inputEmpty
  | invalidCharacters
  | invalidUTF8
  deriving DecidableEq, Repr

/-- `MaxInputLength` (validators.go). -/
def MaxInputLength : Nat := 10000

/-- `MaxAddressLength` (validators.go). -/
def MaxAddressLength : Nat := 500

/-- `ValidateInput` (validators.go): emptiness, UTF-8 validity, length cap,
embedded NUL check — in source order. -/
def ValidateInput (input : Str) : Option Err :=
  if input = [] then some .inputEmpty
  else if utf8Valid input = false then some .invalidUTF8
  else if input.length > MaxInputLength then some .inputTooLong
  else if input.contains 0 then some .invalidCharacters
  else none

/-- `SanitizeInput` (validators.go): strip NUL bytes, collapse whitespace
runs to single spaces, trim, then hard-truncate to `MaxAddressLength` bytes. -/
def SanitizeInput (input : Str) : Str :=
  let i1 := input.filter (· ≠ 0)
  let i2 := joinSp (fields i1)
  let i3 := trimSpace i2
  if i3.length > MaxAddressLength then i3.take MaxAddressLength else i3

/-- `ValidateAndSanitize` (validators.go). -/
def ValidateAndSanitize (input : Str) : Except Err Str :=
  match ValidateInput input with
  | some e => .error e
  | none => .ok (SanitizeInput input)

/-- Modelled from the spec: the directional normalization table
(compass word or abbreviation → canonical abbreviation, §2 and glossary)
is not under src/; only its callers and tests are.  Pinned by the repo
tests: north→N, N→N, northeast→NE. -/
def DirectionalTable : List (Str × Str) :=
  [(ofStr "north", ofStr "N"), (ofStr "south", ofStr "S"),
   (ofStr "east", ofStr "E"), (ofStr "west", ofStr "W"),
   (ofStr "northeast", ofStr "NE"), (ofStr "northwest", ofStr "NW"),
   (ofStr "southeast", ofStr "SE"), (ofStr "southwest", ofStr "SW"),
   (ofStr "n", ofStr "N"), (ofStr "s", ofStr "S"),
   (ofStr "e", ofStr "E"), (ofStr "w", ofStr "W"),
   (ofStr "ne", ofStr "NE"), (ofStr "nw", ofStr "NW"),
   (ofStr "se", ofStr "SE"), (ofStr "sw", ofStr "SW")]

/-- Modelled from the spec: `NormalizeDirectional` is referenced by
parser.go but its definition is not under src/.  Case-insensitive lookup
in the directional table; empty string when unrecognized. -/
def NormalizeDirectional (w : Str) : Str :=
  (List.lookup (toLowerStr w) DirectionalTable).getD []

/-- Modelled from the spec: the street-type normalization table
(synonym → canonical abbreviation, §2) is not under src/.  Keys are
lower-case and include the canonical abbreviations themselves mapping to
themselves (the parser.go "differs from the raw token" guard and the city
boundary scan `StreetType[word]` both rely on canonical keys being
present).  Pinned by the repo tests: avenue→ave, boulevard→blvd, and
highway/hwy→hwy via the round-trip tests. -/
def StreetType : List (Str × Str) :=
  [(ofStr "avenue", ofStr "ave"), (ofStr "ave", ofStr "ave"),
   (ofStr "boulevard", ofStr "blvd"), (ofStr "blvd", ofStr "blvd"),
   (ofStr "highway", ofStr "hwy"), (ofStr "hwy", ofStr "hwy"),
   (ofStr "street", ofStr "st"), (ofStr "st", ofStr "st"),
   (ofStr "road", ofStr "rd"), (ofStr "rd", ofStr "rd"),
   (ofStr "drive", ofStr "dr"), (ofStr "dr", ofStr "dr"),
   (ofStr "lane", ofStr "ln"), (ofStr "ln", ofStr "ln"),
   (ofStr "court", ofStr "ct"), (ofStr "ct", ofStr "ct"),
   (ofStr "place", ofStr "pl"), (ofStr "pl", ofStr "pl"),
   (ofStr "parkway", ofStr "pkwy"), (ofStr "pkwy", ofStr "pkwy")]

/-- Modelled from the spec: `NormalizeStreetType` is referenced by
parser.go but its definition is not under src/.  Case-insensitive lookup
in the street-type table; empty string when unrecognized. -/
def NormalizeStreetType (w : Str) : Str :=
  (List.lookup (toLowerStr w) StreetType).getD []

/-- Membership test used by the city boundary scan
(`if _, isType := StreetType[word]; isType`), on an already-lowercased word. -/
def isStreetTypeKey (w : Str) : Bool := (List.lookup w StreetType).isSome

/-- Modelled from the spec: state full names → canonical code
(state table, §2).  A sample sufficient for the pinned tests
(california→CA, texas→TX). -/
def StateNameTable : List (Str × Str) :=
  [(ofStr "california", ofStr "CA"), (ofStr "texas", ofStr "TX"),
   (ofStr "oregon", ofStr "OR"), (ofStr "nevada", ofStr "NV"),
   (ofStr "washington", ofStr "WA"), (ofStr "arizona", ofStr "AZ"),
   (ofStr "florida", ofStr "FL"), (ofStr "illinois", ofStr "IL"),
   (ofStr "colorado", ofStr "CO"), (ofStr "georgia", ofStr "GA")]

/-- Modelled from the spec: the set of valid 2-letter state codes. -/
def StateCodes : List Str :=
  [ofStr "CA", ofStr "TX", ofStr "OR", ofStr "NY", ofStr "NV",
   ofStr "WA", ofStr "AZ", ofStr "FL", ofStr "IL", ofStr "MA",
   ofStr "PA", ofStr "CO", ofStr "GA", ofStr "NJ", ofStr "NC",
   ofStr "MI", ofStr "OH", ofStr "VA"]

/-- Modelled from the spec: `NormalizeState` is referenced by parser.go
but its definition is not under src/.  Full names map to their code;
valid 2-letter codes map to their upper-case form; anything else to the
empty string.  Pinned by the repo tests: california→CA, CA→CA,
texas→TX. -/
def NormalizeState (w : Str) : Str :=
  match List.lookup (toLowerStr w) StateNameTable with
  | some c => c
  | none =>
    let u := toUpperStr w
    if StateCodes.contains u then u else []

/-- Word-ness of an optional preceding byte (out of range = non-word). -/
def wordOpt : Option Nat → Bool
  | none => false
  | some b => isWordB b

/-- Word-ness of the first byte of the following text (empty = non-word). -/
def wordNext : Str → Bool
  | [] => false
  | b :: _ => isWordB b

/-- RE2 `\b` before a byte `c`, given the preceding byte. -/
def boundaryL (prev : Option Nat) (c : Nat) : Bool := wordOpt prev != isWordB c

/-- RE2 `\b` after a byte `c`, given the following text. -/
def boundaryR (c : Nat) (t : Str) : Bool := isWordB c != wordNext t

def digitsTake (s : Str) : Str := s.takeWhile isDigitB

/-- One attempt of the `zip` pattern `(?i)\b(\d{5})(?:[-\s]?(\d{4}))?\b`
at the current position (leftmost-first semantics with the backtracking
order of the optional `+4` part).  Returns (zip, plus4, match length). -/
def zipMatchAt (prev : Option Nat) (s : Str) : Option (Str × Str × Nat) :=
  let d5 := s.take 5
  if d5.length = 5 ∧ d5.all isDigitB ∧ wordOpt prev = false then
    let rest := s.drop 5
    match rest with
    | sep :: a2 =>
      if (sep = 45 ∨ isReSpaceB sep) ∧ (a2.take 4).length = 4 ∧
          (a2.take 4).all isDigitB ∧ wordNext (a2.drop 4) = false then
        some (d5, a2.take 4, 10)
      else if (rest.take 4).length = 4 ∧ (rest.take 4).all isDigitB ∧
          wordNext (rest.drop 4) = false then
        some (d5, rest.take 4, 9)
      else if isWordB sep = false then some (d5, [], 5)
      else none
    | [] => some (d5, [], 5)
  else none

def zipFindAux (prev : Option Nat) : Str → Option (Str × Str)
  | [] => none
  | b :: r =>
    match zipMatchAt prev (b :: r) with
    | some (z, p, _) => some (z, p)
    | none => zipFindAux (some b) r

/-- `zip.FindStringSubmatch`: groups of the leftmost match. -/
def zipFind (s : Str) : Option (Str × Str) := zipFindAux none s

def zipRemoveAllAux : Nat → Option Nat → Str → Str
  | 0, _, s => s
  | _ + 1, _, [] => []
  | f + 1, prev, b :: r =>
    match zipMatchAt prev (b :: r) with
    | some (_, _, len) =>
      zipRemoveAllAux f (some ((b :: r).getD (len - 1) b)) ((b :: r).drop len)
    | none => b :: zipRemoveAllAux f (some b) r

/-- `zip.ReplaceAllString(s, "")`. -/
def zipRemoveAll (s : Str) : Str := zipRemoveAllAux (s.length + 1) none s

/-- One attempt of the `state` pattern `(?i)\b([A-Z]{2})\b`. -/
def stateMatchAt (prev : Option Nat) (s : Str) : Option Str :=
  match s with
  | a :: b :: t =>
    if isAlphaB a ∧ isAlphaB b ∧ wordOpt prev = false ∧ wordNext t = false then
      some [a, b]
    else none
  | _ => none

def stateFindAux (prev : Option Nat) : Str → Option Str
  | [] => none
  | b :: r =>
    match stateMatchAt prev (b :: r) with
    | some m => some m
    | none => stateFindAux (some b) r

/-- `state.FindStringSubmatch`: the leftmost bare 2-letter token. -/
def stateFind (s : Str) : Option Str := stateFindAux none s

def stateRemoveAllAux : Nat → Option Nat → Str → Str
  | 0, _, s => s
  | _ + 1, _, [] => []
  | f + 1, prev, b :: r =>
    match stateMatchAt prev (b :: r) with
    | some _ =>
      stateRemoveAllAux f (some ((b :: r).getD 1 b)) ((b :: r).drop 2)
    | none => b :: stateRemoveAllAux f (some b) r

/-- `state.ReplaceAllString(s, "")`. -/
def stateRemoveAll (s : Str) : Str := stateRemoveAllAux (s.length + 1) none s

/-- One attempt of the `corner` pattern `(?i)\b(and|at|&|@)\b`
(alternatives in source order).  Returns the match length.
Note `\b&\b` / `\b@\b`: since `&` and `@` are not word characters, the
boundaries hold only when a word character is directly adjacent on each
side. -/
def cornerMatchAt (prev : Option Nat) (s : Str) : Option Nat :=
  if toLowerStr (s.take 3) = ofStr "and" ∧ wordOpt prev = false ∧
      wordNext (s.drop 3) = false then some 3
  else if toLowerStr (s.take 2) = ofStr "at" ∧ wordOpt prev = false ∧
      wordNext (s.drop 2) = false then some 2
  else if s.take 1 = [38] ∧ wordOpt prev = true ∧ wordNext (s.drop 1) = true then
    some 1
  else if s.take 1 = [64] ∧ wordOpt prev = true ∧ wordNext (s.drop 1) = true then
    some 1
  else none

def cornerFindAux (prev : Option Nat) : Str → Option Nat
  | [] => none
  | b :: r =>
    match cornerMatchAt prev (b :: r) with
    | some len => some len
    | none => cornerFindAux (some b) r

/-- `corner.MatchString`. -/
def cornerMatchB (s : Str) : Bool := (cornerFindAux none s).isSome

def cornerSplitAux (prev : Option Nat) (acc : Str) : Str → Option (Str × Str)
  | [] => none
  | b :: r =>
    match cornerMatchAt prev (b :: r) with
    | some len => some (acc, (b :: r).drop len)
    | none => cornerSplitAux (some b) (acc ++ [b]) r

/-- `corner.Split(s, 2)` when it yields two parts (i.e. a marker exists);
`none` models the 1-part result. -/
def cornerSplit2 (s : Str) : Option (Str × Str) := cornerSplitAux none [] s

/-- Case-insensitive `[NSEW]`. -/
def isNSEW (b : Nat) : Bool :=
  toLowerB b = 110 || toLowerB b = 115 || toLowerB b = 101 || toLowerB b = 119

/-- First alternative `\d+[\-]?\d*` of the `number` pattern, with its
backtracking against the trailing `\b` (a failing `\b` after the optional
digits falls back to ending the match at the hyphen, then before it). -/
def numberAlt1 (rest : Str) : Option Str :=
  let d1 := digitsTake rest
  if d1 = [] then none
  else
    match rest.drop d1.length with
    | 45 :: a2 =>
      let d2 := digitsTake a2
      if d2 ≠ [] ∧ wordNext (a2.drop d2.length) = false then some (d1 ++ 45 :: d2)
      else if wordNext a2 = true then some (d1 ++ [45])
      else some d1
    | after =>
      if wordNext after = false then some d1 else none

/-- Second alternative `[NSEW]\d{1,3}[NSEW]\d{1,6}` of the `number`
pattern (grid coordinates), with the trailing `\b`. -/
def numberAlt2 (rest : Str) : Option Str :=
  match rest with
  | c :: t1 =>
    if isNSEW c then
      let r1 := digitsTake t1
      if 1 ≤ r1.length ∧ r1.length ≤ 3 then
        match t1.drop r1.length with
        | c2 :: t2 =>
          if isNSEW c2 then
            let r2 := digitsTake t2
            if 1 ≤ r2.length ∧ r2.length ≤ 6 ∧ wordNext (t2.drop r2.length) = false then
              some (c :: (r1 ++ c2 :: r2))
            else none
          else none
        | [] => none
      else none
    else none
  | [] => none

/-- The anchored `number` pattern
`(?i)^[^\w#]*(\d+[\-]?\d*|[NSEW]\d{1,3}[NSEW]\d{1,6})\b`.
Returns (full match, captured group). -/
def numberFind (s : Str) : Option (Str × Str) :=
  let pre := s.takeWhile (fun b => !isWordB b && b ≠ 35)
  let rest := s.drop pre.length
  match numberAlt1 rest with
  | some g => some (pre ++ g, g)
  | none =>
    match numberAlt2 rest with
    | some g => some (pre ++ g, g)
    | none => none

/-- `number.MatchString`. -/
def numberMatchB (s : Str) : Bool := (numberFind s).isSome

/-- The character class `[a-z0-9\-]` of the `secUnit` pattern (with `(?i)`). -/
def secClassB (b : Nat) : Bool := isAlphaB b || isDigitB b || b = 45

/-- The keyword alternatives of the `secUnit` pattern, in source order. -/
def secUnitKws : List Str :=
  [ofStr "apt", ofStr "apartment", ofStr "suite", ofStr "ste", ofStr "unit",
   ofStr "#", ofStr "room", ofStr "rm", ofStr "floor", ofStr "fl",
   ofStr "building", ofStr "bldg"]

/-- One keyword attempt of `\b(kw)\W*([a-z0-9\-]+)`: keyword (with left
`\b`), then a greedy non-word run, then at least one class character.
A greedy `\W*` that leaves no class character backtracks to the last
hyphen inside the run (hyphen is the only byte in both `\W` and the
class), capturing it as the unit number. -/
def secUnitTryKw (prev : Option Nat) (s : Str) (kw : Str) : Option (Str × Str × Nat) :=
  match s with
  | [] => none
  | h :: _ =>
    if toLowerStr (s.take kw.length) = kw ∧ boundaryL prev h = true then
      let t := s.drop kw.length
      let wrun := t.takeWhile (fun b => !isWordB b)
      let t2 := t.drop wrun.length
      match t2 with
      | c :: _ =>
        if secClassB c then
          let num := t2.takeWhile secClassB
          some (s.take kw.length, num, kw.length + wrun.length + num.length)
        else
          let j := wrun.reverse.indexOf 45
          if j < wrun.length then
            some (s.take kw.length, [45], kw.length + (wrun.length - 1 - j) + 1)
          else none
      | [] =>
        let j := wrun.reverse.indexOf 45
        if j < wrun.length then
          some (s.take kw.length, [45], kw.length + (wrun.length - 1 - j) + 1)
        else none
    else none

/-- The bare alternatives `\bbasement\b|\bfront\b|\brear\b`, in order. -/
def secUnitTryBare (prev : Option Nat) (s : Str) (lit : Str) : Option (Str × Nat) :=
  match s with
  | [] => none
  | h :: _ =>
    if toLowerStr (s.take lit.length) = lit ∧ boundaryL prev h = true ∧
        wordNext (s.drop lit.length) = false then
      some (s.take lit.length, lit.length)
    else none

/-- A `secUnit` match: either keyword + number (groups 1, 2) or a bare
designator (group 3); the `Nat` is the full match length. -/
def secUnitAt (prev : Option Nat) (s : Str) : Option ((Str × Str × Nat) ⊕ (Str × Nat)) :=
  match secUnitKws.findSome? (secUnitTryKw prev s) with
  | some m => some (.inl m)
  | none =>
    match [ofStr "basement", ofStr "front", ofStr "rear"].findSome?
        (secUnitTryBare prev s) with
    | some m => some (.inr m)
    | none => none

def secUnitFindAux (prev : Option Nat) : Str → Option ((Str × Str × Nat) ⊕ (Str × Nat))
  | [] => none
  | b :: r =>
    match secUnitAt prev (b :: r) with
    | some m => some m
    | none => secUnitFindAux (some b) r

/-- `secUnit.FindStringSubmatch` (leftmost match, groups). -/
def secUnitFind (s : Str) : Option ((Str × Str × Nat) ⊕ (Str × Nat)) :=
  secUnitFindAux none s

/-- Length of a `secUnit` match. -/
def secUnitLen : (Str × Str × Nat) ⊕ (Str × Nat) → Nat
  | .inl (_, _, n) => n
  | .inr (_, n) => n

def secUnitReplaceAllAux : Nat → Option Nat → Str → Str
  | 0, _, s => s
  | _ + 1, _, [] => []
  | f + 1, prev, b :: r =>
    match secUnitAt prev (b :: r) with
    | some m =>
      let len := secUnitLen m
      32 :: secUnitReplaceAllAux f (some ((b :: r).getD (len - 1) b)) ((b :: r).drop len)
    | none => b :: secUnitReplaceAllAux f (some b) r

/-- `secUnit.ReplaceAllString(s, " ")`. -/
def secUnitReplaceAll (s : Str) : Str := secUnitReplaceAllAux (s.length + 1) none s

/-- Tail `\W*box\W*(\d+)` of the `poBox` pattern; `consumed` counts the
bytes matched so far.  Returns (box digits, total match length). -/
def poBoxTail (u : Str) (consumed : Nat) : Option (Str × Nat) :=
  let w := u.takeWhile (fun b => !isWordB b)
  let u1 := u.drop w.length
  if toLowerStr (u1.take 3) = ofStr "box" then
    let u2 := u1.drop 3
    let w2 := u2.takeWhile (fun b => !isWordB b)
    let d := digitsTake (u2.drop w2.length)
    if d ≠ [] then some (d, consumed + w.length + 3 + w2.length + d.length)
    else none
  else none

/-- The anchored `poBox` pattern
`(?i)^[^\w]*p\W*(?:o|ost\s*office)?\W*box\W*(\d+)`; the optional group
tries `o`, then `ost\s*office`, then empty (leftmost-first order). -/
def poBoxFind (s : Str) : Option (Str × Nat) :=
  let pre := s.takeWhile (fun b => !isWordB b)
  match s.drop pre.length with
  | p :: t =>
    if toLowerB p = 112 then
      let w1 := t.takeWhile (fun b => !isWordB b)
      let t1 := t.drop w1.length
      let base := pre.length + 1 + w1.length
      let tryO :=
        match t1 with
        | o :: t2 => if toLowerB o = 111 then poBoxTail t2 (base + 1) else none
        | [] => none
      match tryO with
      | some m => some m
      | none =>
        let tryOst :=
          if toLowerStr (t1.take 3) = ofStr "ost" then
            let t2 := t1.drop 3
            let sp := t2.takeWhile isReSpaceB
            let t3 := t2.drop sp.length
            if toLowerStr (t3.take 6) = ofStr "office" then
              poBoxTail (t3.drop 6) (base + 3 + sp.length + 6)
            else none
          else none
        match tryOst with
        | some m => some m
        | none => poBoxTail t1 base
    else none
  | [] => none

/-- `poBox.MatchString`. -/
def poBoxMatchB (s : Str) : Bool := (poBoxFind s).isSome

/-- `poBox.ReplaceAllString(s, "")`: the pattern is `^`-anchored, so at
most one match (at position 0) is removed. -/
def poBoxRemove (s : Str) : Str :=
  match poBoxFind s with
  | some (_, len) => s.drop len
  | none => s

/-- `ParsedAddress` (types file of pkg/parser).  The Go fields `Prefix`
and `Type` are named `Pfx` and `Typ` here (and `Prefix1`/`Prefix2`
become `Pfx1`/`Pfx2` below) purely for Lean-side naming reasons; the
semantics are unchanged. -/
structure ParsedAddress where
  Number : Str := []
  Pfx : Str := []
  Street : Str := []
  Typ : Str := []
  Suffix : Str := []
  SecUnitType : Str := []
  SecUnitNum : Str := []
  City : Str := []
  State : Str := []
  ZIP : Str := []
  Plus4 : Str := []
  deriving DecidableEq, Repr

/-- `ParsedIntersection` (types file of pkg/parser). -/
structure ParsedIntersection where
  Pfx1 : Str := []
  Street1 : Str := []
  Type1 : Str := []
  Suffix1 : Str := []
  Pfx2 : Str := []
  Street2 : Str := []
  Type2 : Str := []
  Suffix2 : Str := []
  City : Str := []
  State : Str := []
  ZIP : Str := []
  deriving DecidableEq, Repr

/-- `ParseResult` (types file of pkg/parser): tag (Go field `Type`,
values "address", "intersection", "po_box", "none") plus at most one
populated variant. -/
structure ParseResult where
  Typ : String
  Address : Option ParsedAddress := none
  Intersection : Option ParsedIntersection := none
  deriving DecidableEq, Repr

/-- `(*ParsedAddress).IsEmpty`. -/
def ParsedAddress.IsEmpty (p : ParsedAddress) : Bool :=
  p.Number.isEmpty && p.Pfx.isEmpty && p.Street.isEmpty && p.Typ.isEmpty &&
  p.Suffix.isEmpty && p.SecUnitType.isEmpty && p.SecUnitNum.isEmpty &&
  p.City.isEmpty && p.State.isEmpty && p.ZIP.isEmpty && p.Plus4.isEmpty

/-- `titleCase` (types file): trim, then upper-case the first byte and
lower-case the rest of each whitespace-separated word. -/
def titleCase (s : Str) : Str :=
  let t := trimSpace s
  if t = [] then t
  else
    joinSp ((fields t).map fun w =>
      match w with
      | [] => []
      | c :: r => toUpperB c :: toLowerStr r)

/-- `(*ParsedAddress).Normalize`: trim all fields, title-case street and
city, upper-case state. -/
def ParsedAddress.Normalize (p : ParsedAddress) : ParsedAddress :=
  { Number := trimSpace p.Number
    Pfx := trimSpace p.Pfx
    Street := titleCase p.Street
    Typ := trimSpace p.Typ
    Suffix := trimSpace p.Suffix
    SecUnitType := trimSpace p.SecUnitType
    SecUnitNum := trimSpace p.SecUnitNum
    City := titleCase p.City
    State := toUpperStr (trimSpace p.State)
    ZIP := trimSpace p.ZIP
    Plus4 := trimSpace p.Plus4 }

/-- The city-start backward scan of `ParseAddress` (no-comma path): from
`cityStart = i - 1`, walk left while the previous word is neither a
street-type key nor a street-number match. -/
def findCityStart (words : List Str) : Nat → Nat
  | 0 => 0
  | k + 1 =>
    let w := words.getD k []
    if isStreetTypeKey (toLowerStr w) || numberMatchB w then k + 1
    else findCityStart words k

/-- The state scan of `ParseAddress` (no-comma path): the last up to
three words, scanned from the end; the first word containing a bare
2-letter token wins. -/
def firstStateIdx (words : List Str) : Option (Nat × Str) :=
  let n := words.length
  ((List.range n).reverse.filter fun i => decide (i + 3 ≥ n)).findSome?
    fun i => (stateFind (words.getD i [])).map fun m => (i, m)

/-- The last token consumed as street type iff its normalization is
non-empty and differs from the raw token (`ParseAddress`, also used by
`ParseIntersection` for each side). -/
def consumeStreetType (words : List Str) : Str × List Str :=
  match words.getLast? with
  | none => ([], words)
  | some lw =>
    let st := NormalizeStreetType lw
    if st ≠ [] ∧ st ≠ lw then (st, words.dropLast) else ([], words)

/-- Steps 6–9 of the standard decomposition: directional prefix from the
front, directional suffix from the (current) end, street type from the
new end.  Returns (prefix, suffix, type, remaining street words). -/
def parseStreetWords (words0 : List Str) : Str × Str × Str × List Str :=
  let pw :=
    match words0 with
    | [] => (([] : Str), ([] : List Str))
    | w :: rest =>
      let d := NormalizeDirectional w
      if d ≠ [] then (d, rest) else ([], words0)
  let w1 := pw.2
  let sw :=
    match w1.getLast? with
    | some lw =>
      let d := NormalizeDirectional lw
      if d ≠ [] then (d, w1.dropLast) else (([] : Str), w1)
    | none => ([], w1)
  let ts := consumeStreetType sw.2
  (pw.1, sw.1, ts.1, ts.2)

/-- The extraction pipeline of `ParseAddress` (parser.go lines 124–207):
ZIP, state/city, secondary unit, street number — each removing its match
from the working string.  Returns the partially filled record and the
trimmed remaining string that the street phase tokenizes. -/
def ParseAddressCore (address0 : Str) : ParsedAddress × Str :=
  let zres := zipFind address0
  let zip := match zres with | some (z, _) => z | none => []
  let plus4 := match zres with | some (_, p) => p | none => []
  let address1 := match zres with | some _ => zipRemoveAll address0 | none => address0
  let parts := splitComma address1
  let sc :=
    if parts.length ≥ 2 then
      -- comma path: state searched in the last comma segment; the
      -- two TrimSuffix assignments of the source on the working string are
      -- immediately overwritten by the rebuild from parts and are
      -- therefore not reproduced here.
      let lastPart := trimSpace (parts.getLastD [])
      let state :=
        match stateFind lastPart with
        | some m => NormalizeState m
        | none => []
      let city := trimSpace (parts.getD (parts.length - 2) [])
      let addressB := joinComma (parts.take (parts.length - 2))
      (state, city, addressB)
    else
      -- single-segment path (split always yields at least one part, so
      -- in the source, `else if len(parts) == 1` is just `else`)
      let words := fields address1
      if words.length ≥ 2 then
        match firstStateIdx words with
        | some (i, m) =>
          if i > 0 then
            let cs := findCityStart words (i - 1)
            (NormalizeState m, joinSp ((words.drop cs).take (i - cs)),
             joinSp (words.take cs))
          else (NormalizeState m, [], address1)
        | none => ([], [], address1)
      else ([], [], address1)
  let address2 := sc.2.2
  let su := secUnitFind address2
  let sut :=
    match su with
    | some (.inl (kw, _, _)) => trimSpace kw
    | some (.inr (lit, _)) => trimSpace lit
    | none => []
  let sun :=
    match su with
    | some (.inl (_, num, _)) => trimSpace num
    | _ => []
  let address3 := match su with | some _ => secUnitReplaceAll address2 | none => address2
  let nf := numberFind address3
  let num := match nf with | some (_, g) => trimSpace g | none => []
  let address4 := match nf with | some (full, _) => replaceFirst address3 full | none => address3
  ({ Number := num, SecUnitType := sut, SecUnitNum := sun, City := sc.2.1,
     State := sc.1, ZIP := zip, Plus4 := plus4 }, trimSpace address4)

/-- The working string of `ParseAddress` after all extractions, just
before tokenization into street words (parser.go line 207). -/
def ParseAddressRemainder (s : Str) : Str := (ParseAddressCore s).2

/-- `ParseAddress` (parser.go): pipeline, street phase, normalization.
(The early return of the source on an empty word list coincides with running
the street phase on the empty list.) -/
def ParseAddress (address0 : Str) : ParsedAddress :=
  let core := ParseAddressCore address0
  let psw := parseStreetWords (fields core.2)
  ParsedAddress.Normalize
    { core.1 with
      Pfx := psw.1
      Suffix := psw.2.1
      Typ := psw.2.2.1
      Street := if psw.2.2.2 ≠ [] then joinSp psw.2.2.2 else [] }

/-- `ParseInformalAddress` (parser.go): run `ParseAddress`; if both
number and street came back empty, the fields of the whole input joined by
single spaces become the street. -/
def ParseInformalAddress (address : Str) : ParsedAddress :=
  let result := ParseAddress address
  if result.Number = [] ∧ result.Street = [] then
    let words := fields address
    if words.length > 0 then { result with Street := joinSp words } else result
  else result

/-- `ParsePoAddress` (parser.go): PO Box marker, then ZIP, then state,
remainder (trimmed of spaces and commas) as city, then normalization. -/
def ParsePoAddress (address0 : Str) : ParsedAddress :=
  let pb := poBoxFind address0
  let sut := match pb with | some _ => ofStr "PO Box" | none => []
  let sun := match pb with | some (d, _) => d | none => []
  let address1 := match pb with | some _ => poBoxRemove address0 | none => address0
  let zres := zipFind address1
  let zip := match zres with | some (z, _) => z | none => []
  let plus4 := match zres with | some (_, p) => p | none => []
  let address2 := match zres with | some _ => zipRemoveAll address1 | none => address1
  let st := stateFind address2
  let state := match st with | some m => NormalizeState m | none => []
  let address3 := match st with | some _ => stateRemoveAll address2 | none => address2
  let city := trimCommas (trimSpace address3)
  ParsedAddress.Normalize
    { SecUnitType := sut, SecUnitNum := sun, ZIP := zip, Plus4 := plus4,
      State := state, City := city }

/-- The type reconciliation at the end of `ParseIntersection`
(parser.go lines 385–391). -/
def reconcileTypes (r : ParsedIntersection) : ParsedIntersection :=
  if r.Type1 = [] ∧ r.Type2 ≠ [] then { r with Type1 := r.Type2 }
  else if r.Type2 = [] ∧ r.Type1 ≠ [] then { r with Type2 := r.Type1 }
  else r

/-- Both sides of `ParseIntersection` before reconciliation: side 1 is
street words only; side 2 first sheds a ZIP and, when commas are
present, a trailing state segment and a city segment. -/
def buildIntersection (part1 part2 : Str) : ParsedIntersection :=
  let street1 := trimSpace part1
  let psw1 := parseStreetWords (fields street1)
  let s2a := trimSpace part2
  let zres := zipFind s2a
  let zip := match zres with | some (z, _) => z | none => []
  let s2b := match zres with | some _ => zipRemoveAll s2a | none => s2a
  let streetParts := splitComma s2b
  let scs :=
    if streetParts.length > 1 then
      let lastPart := trimSpace (streetParts.getLastD [])
      let stOpt := stateFind lastPart
      let state := match stOpt with | some m => NormalizeState m | none => []
      let sp2 := match stOpt with | some _ => streetParts.dropLast | none => streetParts
      if sp2.length > 1 then
        (state, trimSpace (sp2.getLastD []), trimSpace (sp2.getD 0 []))
      else (state, [], s2b)
    else ([], [], s2b)
  let psw2 := parseStreetWords (fields scs.2.2)
  { Pfx1 := psw1.1
    Suffix1 := psw1.2.1
    Type1 := psw1.2.2.1
    Street1 := if psw1.2.2.2 ≠ [] then joinSp psw1.2.2.2 else []
    Pfx2 := psw2.1
    Suffix2 := psw2.2.1
    Type2 := psw2.2.2.1
    Street2 := if psw2.2.2.2 ≠ [] then joinSp psw2.2.2.2 else []
    City := scs.2.1
    State := scs.1
    ZIP := zip }

/-- `ParseIntersection` (parser.go): split on the first intersection
marker; `none` models the nil result when the split does not yield two
parts. -/
def ParseIntersection (address : Str) : Option ParsedIntersection :=
  match cornerSplit2 address with
  | none => none
  | some (a, b) => some (reconcileTypes (buildIntersection a b))

/-- The routing cascade of `ParseLocation` after the intersection
attempt: PO Box (gated on a marker match and a non-empty result),
standard address, informal fallback, else the `none` result.  The Go
early returns are modelled with `Option ParseResult`. -/
def ParseLocationTail (s : Str) : ParseResult :=
  let poRes : Option ParseResult :=
    if poBoxMatchB s then
      let a := ParsePoAddress s
      if a.IsEmpty = false then some { Typ := "po_box", Address := some a }
      else none
    else none
  match poRes with
  | some r => r
  | none =>
    let a := ParseAddress s
    if a.IsEmpty = false then { Typ := "address", Address := some a }
    else
      let a2 := ParseInformalAddress s
      if a2.IsEmpty = false then { Typ := "address", Address := some a2 }
      else { Typ := "none" }

/-- The routing cascade of `ParseLocation` on the sanitized string:
intersection first (gated on a corner match and a non-empty street1),
then the rest of the cascade. -/
def ParseLocationSan (s : Str) : ParseResult :=
  let interRes : Option ParseResult :=
    if cornerMatchB s then
      match ParseIntersection s with
      | some inter =>
        if inter.Street1 ≠ [] then
          some { Typ := "intersection", Intersection := some inter }
        else none
      | none => none
    else none
  match interRes with
  | some r => r
  | none => ParseLocationTail s

/-- `ParseLocation` (parser.go): validate and sanitize, then route.
The only error exit is the input guard. -/
def ParseLocation (address : Str) : Except Err ParseResult :=
  match ValidateAndSanitize address with
  | .error e => .error e
  | .ok sanitized => .ok (ParseLocationSan sanitized)

lemma validateInput_none_iff (s : Str) :
    ValidateInput s = none ↔
      (s ≠ [] ∧ utf8Valid s = true ∧ s.length ≤ MaxInputLength ∧ s.contains 0 = false) := by
  unfold ValidateInput
  split_ifs with h1 h2 h3 h4 <;> simp_all

lemma parseLocation_error_iff (s : Str) :
    (∃ e, ParseLocation s = .error e) ↔ ValidateInput s ≠ none := by
  unfold ParseLocation ValidateAndSanitize
  cases h : ValidateInput s <;> simp

lemma parseLocation_ok (s : Str) (h : ValidateInput s = none) :
    ParseLocation s = .ok (ParseLocationSan (SanitizeInput s)) := by
  unfold ParseLocation ValidateAndSanitize
  rw [h]

lemma utf8Valid_replicate_A : ∀ n, utf8Valid (List.replicate n 65) = true := by
  intro n
  induction n with
  | zero => rfl
  | succ k ih =>
    rw [List.replicate_succ]
    simpa [utf8Valid, utf8ValidAux] using ih

lemma contains_replicate_A : ∀ n, (List.replicate n 65).contains 0 = false := by
  intro n
  induction n with
  | zero => rfl
  | succ k ih => rw [List.replicate_succ]; simp

/-- C1: `ParseLocation` returns an error exactly when the input is empty,
not valid UTF-8, over the 10000-byte cap, or contains a NUL byte (the
input-guard conditions, checked before any decomposition); at the
boundary, exactly 10000 bytes succeed and 10001 bytes yield
`inputTooLong` with no partial result. -/
theorem c1_input_guard_errors :
    (∀ s : Str, (∃ e, ParseLocation s = .error e) ↔
      (s = [] ∨ utf8Valid s = false ∨ MaxInputLength < s.length ∨ s.contains 0 = true)) ∧
    (∃ r, ParseLocation (List.replicate MaxInputLength 65) = .ok r) ∧
    ParseLocation (List.replicate (MaxInputLength + 1) 65) = .error .inputTooLong := by
  have hne : ∀ n, n ≠ 0 → List.replicate n (65 : Nat) ≠ [] := by
    intro n hn hnil
    have hlen : (List.replicate n (65 : Nat)).length = n := List.length_replicate _ _
    rw [hnil] at hlen
    exact hn hlen.symm
  refine ⟨fun s => ?_, ?_, ?_⟩
  · simp only [parseLocation_error_iff, Ne, validateInput_none_iff, not_and_or, not_not,
      Bool.not_eq_true, Bool.not_eq_false, Nat.not_le]
  · have h : ValidateInput (List.replicate MaxInputLength 65) = none := by
      rw [validateInput_none_iff]
      exact ⟨hne _ (by decide), utf8Valid_replicate_A _, by simp,
        contains_replicate_A _⟩
    exact ⟨_, parseLocation_ok _ h⟩
  · have h : ValidateInput (List.replicate (MaxInputLength + 1) 65) = some .inputTooLong := by
      unfold ValidateInput
      rw [if_neg (hne _ (by decide)), if_neg (by simp [utf8Valid_replicate_A]),
        if_pos (by simp [Nat.lt_succ_self])]
    unfold ParseLocation ValidateAndSanitize
    rw [h]

/-- C5, counterexample: the empty input satisfies every hypothesis of the
claim (valid UTF-8, at most 10000 bytes, no NUL byte) yet `ParseLocation`
returns an error rather than a `ParseResult`. -/
theorem c5_counterexample :
    utf8Valid ([] : Str) = true ∧ ([] : Str).length ≤ MaxInputLength ∧
    ([] : Str).contains 0 = false ∧ ParseLocation [] = .error .inputEmpty :=
  ⟨rfl, by decide, rfl, rfl⟩

/-- C5, amended: for every NON-EMPTY input of valid UTF-8, at most the
10000-byte cap and with no NUL byte, `ParseLocation` returns a
`ParseResult` (the error branch is unreachable; every decomposition
stage is a total function). -/
theorem c5_amended_totality :
    ∀ s : Str, s ≠ [] → utf8Valid s = true → s.length ≤ MaxInputLength →
      s.contains 0 = false → ∃ r, ParseLocation s = .ok r := by
  intro s h1 h2 h3 h4
  exact ⟨_, parseLocation_ok s ((validateInput_none_iff s).mpr ⟨h1, h2, h3, h4⟩)⟩

/-- Witness for the amended C5 at a concrete input. -/
theorem c5_amended_totality_witness :
    ofStr "123 Main St" ≠ [] ∧ utf8Valid (ofStr "123 Main St") = true ∧
    (ofStr "123 Main St").length ≤ MaxInputLength ∧
    (ofStr "123 Main St").contains 0 = false ∧
    ∃ r, ParseLocation (ofStr "123 Main St") = .ok r :=
  ⟨by decide, by decide, by decide, by decide,
   c5_amended_totality (ofStr "123 Main St") (by decide) (by decide) (by decide) (by decide)⟩

/-- C9: a whitespace-only input passes the guard (the emptiness check
runs on the raw input before whitespace is collapsed) and parses to a
nil error with a `none`-typed result. -/
theorem c9_whitespace_only_input :
    ValidateInput [32, 32, 32] = none ∧
    ParseLocation [32, 32, 32] = .ok { Typ := "none" } :=
  ⟨rfl, rfl⟩

lemma parseLocationTail_typ (s : Str) :
    (ParseLocationTail s).Typ = "po_box" ∨ (ParseLocationTail s).Typ = "address" ∨
    (ParseLocationTail s).Typ = "none" := by
  unfold ParseLocationTail
  by_cases hp : poBoxMatchB s
  · rw [if_pos hp]
    by_cases he : (ParsePoAddress s).IsEmpty = false
    · rw [if_pos he]
      exact Or.inl rfl
    · rw [if_neg he]
      by_cases ha : (ParseAddress s).IsEmpty = false
      · rw [if_pos ha]
        exact Or.inr (Or.inl rfl)
      · rw [if_neg ha]
        by_cases hi : (ParseInformalAddress s).IsEmpty = false
        · rw [if_pos hi]
          exact Or.inr (Or.inl rfl)
        · rw [if_neg hi]
          exact Or.inr (Or.inr rfl)
  · rw [if_neg hp]
    by_cases ha : (ParseAddress s).IsEmpty = false
    · rw [if_pos ha]
      exact Or.inr (Or.inl rfl)
    · rw [if_neg ha]
      by_cases hi : (ParseInformalAddress s).IsEmpty = false
      · rw [if_pos hi]
        exact Or.inr (Or.inl rfl)
      · rw [if_neg hi]
        exact Or.inr (Or.inr rfl)

lemma parseLocationTail_ne_intersection (s : Str) :
    (ParseLocationTail s).Typ ≠ "intersection" := by
  rcases parseLocationTail_typ s with h | h | h <;> rw [h] <;> decide

lemma parseLocationSan_intersection (s : Str) :
    (ParseLocationSan s).Typ = "intersection" →
    ∃ i, (ParseLocationSan s).Intersection = some i ∧ i.Street1 ≠ [] := by
  unfold ParseLocationSan
  by_cases hc : cornerMatchB s
  · rw [if_pos hc]
    cases hi : ParseIntersection s with
    | some inter =>
      dsimp only
      by_cases hs : inter.Street1 ≠ []
      · rw [if_pos hs]
        exact fun _ => ⟨inter, rfl, hs⟩
      · rw [if_neg hs]
        exact fun h => absurd h (parseLocationTail_ne_intersection s)
    | none => exact fun h => absurd h (parseLocationTail_ne_intersection s)
  · rw [if_neg hc]
    exact fun h => absurd h (parseLocationTail_ne_intersection s)

/-- C2, counterexample data: parsing "Main St and" (a corner marker with
nothing after it). -/
def c2Inter : ParsedIntersection :=
  { Street1 := ofStr "Main", Type1 := ofStr "st", Type2 := ofStr "st" }

/-- C2, counterexample: `ParseLocation` classifies "Main St and" as an
intersection although its `street2` is empty — the router checks only
`street1`, contradicting the claim that an intersection result requires
both streets to be non-empty. -/
theorem c2_counterexample :
    ParseLocation (ofStr "Main St and") =
      .ok { Typ := "intersection", Intersection := some c2Inter } ∧
    c2Inter.Street2 = [] :=
  ⟨rfl, rfl⟩

/-- C2, amended: the intersection path declines only on a missing or
empty `street1`; whenever `ParseLocation` returns a result of type
"intersection", `street1` is non-empty (street2 may be empty). -/
theorem c2_amended_router_gate :
    ∀ (s : Str) (r : ParseResult), ParseLocation s = .ok r →
      r.Typ = "intersection" → ∃ i, r.Intersection = some i ∧ i.Street1 ≠ [] := by
  intro s r hr htyp
  unfold ParseLocation ValidateAndSanitize at hr
  cases hv : ValidateInput s with
  | some e => rw [hv] at hr; exact absurd hr (by simp)
  | none =>
    rw [hv] at hr
    have hr2 : ParseLocationSan (SanitizeInput s) = r := by
      simpa using hr
    rw [← hr2]
    exact parseLocationSan_intersection _ (hr2.symm ▸ htyp)

/-- Witness for the amended C2 at a concrete input. -/
theorem c2_amended_router_gate_witness :
    ParseLocation (ofStr "Main St and") =
      .ok { Typ := "intersection", Intersection := some c2Inter } ∧
    ({ Typ := "intersection", Intersection := some c2Inter } : ParseResult).Typ =
      "intersection" ∧
    ∃ i, ({ Typ := "intersection", Intersection := some c2Inter } : ParseResult).Intersection =
      some i ∧ i.Street1 ≠ [] :=
  ⟨rfl, rfl, c2_amended_router_gate (ofStr "Main St and") _ rfl rfl⟩

lemma fieldsAux_mem_ne_nil : ∀ (s cur : Str), ∀ w ∈ fieldsAux cur s, w ≠ [] := by
  intro s
  induction s with
  | nil =>
    intro cur w hw
    rw [fieldsAux] at hw
    by_cases hcur : cur = []
    · rw [if_pos hcur] at hw
      simp at hw
    · rw [if_neg hcur] at hw
      simp at hw
      rw [hw]
      exact hcur
  | cons b r ih =>
    intro cur w hw
    rw [fieldsAux] at hw
    by_cases hsp : isSpaceB b = true
    · rw [if_pos hsp] at hw
      by_cases hcur : cur = []
      · rw [if_pos hcur] at hw
        exact ih [] w hw
      · rw [if_neg hcur] at hw
        rcases List.mem_cons.mp hw with h | h
        · rw [h]; exact hcur
        · exact ih [] w h
    · rw [if_neg hsp] at hw
      exact ih (cur ++ [b]) w hw

lemma fields_mem_ne_nil (s : Str) : ∀ w ∈ fields s, w ≠ [] :=
  fieldsAux_mem_ne_nil s []

lemma joinSp_cons_ne_nil (w : Str) (ws : List Str) (hw : w ≠ []) :
    joinSp (w :: ws) ≠ [] := by
  unfold joinSp
  cases ws with
  | nil => simpa using hw
  | cons x xs =>
    rw [List.intersperse_cons_cons]
    simp [hw]

/-- C3, counterexample: on "90210" the standard decomposer leaves number
and street empty and the post-extraction remainder is empty (the ZIP was
removed), yet the informal parse sets the street to "90210" — the whole
original input, not the remainder after removals. -/
theorem c3_counterexample :
    (ParseAddress (ofStr "90210")).Number = [] ∧
    (ParseAddress (ofStr "90210")).Street = [] ∧
    ParseAddressRemainder (ofStr "90210") = [] ∧
    (ParseInformalAddress (ofStr "90210")).Street = ofStr "90210" :=
  ⟨rfl, rfl, rfl, rfl⟩

/-- C3, amended: when the standard decomposer yields both number and
street empty, the informal parse sets the street to the entire original
input with whitespace runs collapsed (its fields joined by single
spaces) — not the post-removal remainder — and hence yields a non-empty
street whenever the input contains any non-whitespace text. -/
theorem c3_amended_informal_street :
    ∀ s : Str, (ParseAddress s).Number = [] → (ParseAddress s).Street = [] →
      (ParseInformalAddress s).Street = joinSp (fields s) ∧
      (fields s ≠ [] → (ParseInformalAddress s).Street ≠ []) := by
  intro s h1 h2
  unfold ParseInformalAddress
  rw [if_pos ⟨h1, h2⟩]
  cases hf : fields s with
  | nil =>
    dsimp only
    rw [if_neg (by simp)]
    refine ⟨?_, fun hne => absurd rfl hne⟩
    rw [h2]
    rfl
  | cons w ws =>
    dsimp only
    rw [if_pos (by simp)]
    have hw : w ≠ [] := fields_mem_ne_nil s w (hf ▸ List.mem_cons_self w ws)
    exact ⟨rfl, fun _ => joinSp_cons_ne_nil w ws hw⟩

/-- Witness for the amended C3 at a concrete input. -/
theorem c3_amended_informal_street_witness :
    (ParseAddress (ofStr "90210")).Number = [] ∧
    (ParseAddress (ofStr "90210")).Street = [] ∧
    (ParseInformalAddress (ofStr "90210")).Street = joinSp (fields (ofStr "90210")) ∧
    (fields (ofStr "90210") ≠ [] → (ParseInformalAddress (ofStr "90210")).Street ≠ []) :=
  ⟨rfl, rfl, c3_amended_informal_street (ofStr "90210") rfl rfl⟩

/-- C4: in the street phase of the standard decomposition, the last remaining
token is consumed as the street type iff its normalization is non-empty
and differs from the raw token itself; a final token that already equals
its own canonical abbreviation is never stripped and the word list (and
hence the street name) is left unchanged. -/
theorem c4_street_type_guard :
    ∀ (ws : List Str) (lw : Str), ws.getLast? = some lw →
      (((consumeStreetType ws).1 ≠ []) ↔
        (NormalizeStreetType lw ≠ [] ∧ NormalizeStreetType lw ≠ lw)) ∧
      (NormalizeStreetType lw = lw → consumeStreetType ws = ([], ws)) := by
  intro ws lw h
  unfold consumeStreetType
  rw [h]
  dsimp only
  by_cases hc : NormalizeStreetType lw ≠ [] ∧ NormalizeStreetType lw ≠ lw
  · rw [if_pos hc]
    exact ⟨⟨fun _ => hc, fun _ => hc.1⟩, fun heq => absurd heq hc.2⟩
  · rw [if_neg hc]
    exact ⟨⟨fun hne => absurd rfl hne, fun hcc => absurd hcc hc⟩, fun _ => rfl⟩

/-- Witness for C4: "st" is already its own canonical abbreviation, so
it is not stripped from ["Penn", "st"]. -/
theorem c4_street_type_guard_witness :
    [ofStr "Penn", ofStr "st"].getLast? = some (ofStr "st") ∧
    ((((consumeStreetType [ofStr "Penn", ofStr "st"]).1 ≠ []) ↔
        (NormalizeStreetType (ofStr "st") ≠ [] ∧
         NormalizeStreetType (ofStr "st") ≠ ofStr "st")) ∧
      (NormalizeStreetType (ofStr "st") = ofStr "st" →
        consumeStreetType [ofStr "Penn", ofStr "st"] = ([], [ofStr "Penn", ofStr "st"]))) :=
  ⟨rfl, c4_street_type_guard [ofStr "Penn", ofStr "st"] (ofStr "st") rfl⟩

lemma reconcileTypes_iff (r : ParsedIntersection) :
    ((reconcileTypes r).Type1 = [] ↔ (reconcileTypes r).Type2 = []) := by
  unfold reconcileTypes
  split_ifs with h1 h2 <;> constructor <;> intro h <;> simp_all

/-- C6: every non-nil `ParseIntersection` result has been through the
type reconciliation (a single empty side inherits the other
type), so its `type1` is empty iff its `type2` is empty. -/
theorem c6_type_reconciliation :
    ∀ (s : Str) (r : ParsedIntersection), ParseIntersection s = some r →
      (r.Type1 = [] ↔ r.Type2 = []) := by
  intro s r h
  unfold ParseIntersection at h
  cases hc : cornerSplit2 s with
  | none => rw [hc] at h; exact absurd h (by simp)
  | some ab =>
    rw [hc] at h
    cases ab with
    | mk a b =>
      dsimp only at h
      have := Option.some.inj h
      rw [← this]
      exact reconcileTypes_iff _

/-- C6 witness data: the two sides of "Mission St and Valencia St". -/
def c6Inter : ParsedIntersection :=
  { Street1 := ofStr "Mission", Type1 := ofStr "st",
    Street2 := ofStr "Valencia", Type2 := ofStr "st" }

/-- Witness for C6 at a concrete input. -/
theorem c6_type_reconciliation_witness :
    ParseIntersection (ofStr "Mission St and Valencia St") = some c6Inter ∧
    (c6Inter.Type1 = [] ↔ c6Inter.Type2 = []) :=
  ⟨rfl, c6_type_reconciliation (ofStr "Mission St and Valencia St") c6Inter rfl⟩

/-- C7: the round trip "1005 N Gravenstein Hwy Sebastopol CA 95472"
decomposes to number 1005, prefix N, street Gravenstein, type hwy, city
Sebastopol, state CA, zip 95472, classified as an address. -/
theorem c7_round_trip :
    ParseLocation (ofStr "1005 N Gravenstein Hwy Sebastopol CA 95472") =
      .ok { Typ := "address",
            Address := some
              { Number := ofStr "1005", Pfx := ofStr "N",
                Street := ofStr "Gravenstein", Typ := ofStr "hwy",
                City := ofStr "Sebastopol", State := ofStr "CA",
                ZIP := ofStr "95472" } } :=
  rfl

/-- C8: the corner pattern `\b(and|at|&|@)\b` cannot match "&" between
spaces (`&` is not a word character, so neither adjacent position is a
word boundary); "5th Ave & Main" is therefore classified as a standard
address whose street is the whole text, not as an intersection. -/
theorem c8_corner_marker_bug :
    cornerMatchB (ofStr "5th Ave & Main") = false ∧
    ParseLocation (ofStr "5th Ave & Main") =
      .ok { Typ := "address",
            Address := some { Street := ofStr "5th Ave & Main" } } :=
  ⟨rfl, rfl⟩

/-- C10 input: 499 ASCII bytes followed by the two-byte UTF-8 character
U+00E9, 501 bytes in total. -/
def c10Input : Str := List.replicate 499 65 ++ [195, 169]

set_option maxRecDepth 4000 in
/-- C10: `c10Input` passes `ValidateInput` (valid UTF-8, under the cap,
no NUL), yet the hard truncation of `SanitizeInput` to 500 bytes cuts the
two-byte character in half, so the sanitized working string is not valid
UTF-8. -/
theorem c10_truncation_splits_utf8 :
    ValidateInput c10Input = none ∧
    utf8Valid (SanitizeInput c10Input) = false :=
  ⟨rfl, rfl⟩
